import Mathlib

/-
Verification of the local fallback synthetic-data engine of
`src/lib/dataGenerator.ts`: schema inference from uploaded CSV/JSON,
type-driven row synthesis, CSV/JSON export, and the remote-or-fallback
generation orchestrator.

JavaScript runtime values are embedded as follows: flat JS values become
`Value` (strings, integer numbers, booleans); JS objects become ordered
association lists with insert-or-overwrite semantics (`objInsert`), which
matches JS property-insertion order; `Math.random()` becomes an explicit
stream `rand : Nat -> Rat` of values in `[0, 1)` consumed one call at a
time; `Date.now()` becomes an explicit `now : Int` millisecond timestamp;
`fetch` outcomes become an explicit `RemoteOutcome`.
-/

namespace DataGen

/-- A flat JavaScript value as it occurs in rows of this program:
a string, an (integer) number, or a boolean. -/
inductive Value where
  | str (s : String)
  | num (n : Int)
  | bool (b : Bool)
deriving DecidableEq, Repr

/-- A JS object used as a data row: an ordered list of key/value pairs
with unique keys (maintained by `objInsert`). -/
abbrev Row := List (String × Value)

/-- A schema as the code consumes it: an ordered map from field name to the
`.type` property of the field descriptor (`none` when the descriptor has no
`type` property). -/
abbrev Schema := List (String × Option String)

/-- Keys of an ordered JS object, in insertion order. -/
def keysOf (r : List (String × α)) : List String := r.map Prod.fst

/-- Number-of-distinct-keys view of `Object.keys(o).length` (robust even if a
schema list were written with duplicate names, which a JS object cannot have). -/
def jsKeys (r : List (String × α)) : List String := (r.map Prod.fst).dedup

/-- JS property write `o[k] = v`: overwrite in place when the key exists,
append otherwise (JS objects keep first-insertion order for keys). -/
def objInsert (r : Row) (k : String) (v : Value) : Row :=
  if r.any (fun p => p.1 = k) then
    r.map (fun p => if p.1 = k then (k, v) else p)
  else
    r ++ [(k, v)]

/-- JS property read `o[k]`: `none` models `undefined`. -/
def jsLookup (r : Row) (k : String) : Option Value :=
  (r.find? (fun p => p.1 = k)).map Prod.snd

/-- Whitespace recognised by `String.prototype.trim` (the characters that
occur in this program's data). -/
def isSp (c : Char) : Bool := c = ' ' || c = '\t' || c = '\n' || c = '\r'

/-- `String.prototype.split` with a one-character separator, on char lists:
always returns at least one (possibly empty) segment. -/
def splitCh (c : Char) : List Char → List (List Char)
  | [] => [[]]
  | a :: rest =>
    if a = c then [] :: splitCh c rest
    else (a :: (splitCh c rest).headD []) :: (splitCh c rest).tail

/-- `Array.prototype.join` with a one-character separator, on char lists. -/
def joinCh (c : Char) : List (List Char) → List Char
  | [] => []
  | [s] => s
  | s :: t :: rest => s ++ c :: joinCh c (t :: rest)

/-- Drop trailing whitespace (helper for `trim`). -/
def dropTrailingSp : List Char → List Char
  | [] => []
  | a :: rest =>
    if dropTrailingSp rest = [] && isSp a then []
    else a :: dropTrailingSp rest

/-- `String.prototype.trim` on char lists. -/
def trimCh (l : List Char) : List Char := dropTrailingSp (l.dropWhile isSp)

/-- `String.prototype.split` with a one-character separator. -/
def jsSplit (c : Char) (s : String) : List String :=
  (splitCh c s.data).map String.mk

/-- `Array.prototype.join` with a one-character separator. -/
def jsJoinCh (c : Char) (xs : List String) : String :=
  String.mk (joinCh c (xs.map String.data))

/-- `String.prototype.trim`. -/
def jsTrim (s : String) : String := String.mk (trimCh s.data)

/-- One positional assignment pass of `headers.forEach((header, index) =>
obj[header] = values[index] || '')` from `processUploadedData`. -/
def buildCsvRowAux (values : List String) : List String → Nat → Row → Row
  | [], _, acc => acc
  | h :: rest, idx, acc =>
    buildCsvRowAux values rest (idx + 1) (objInsert acc h (Value.str (values.getD idx (""))))

/-- Build one CSV row object from the header list and the split cell values. -/
def buildCsvRow (headers values : List String) : Row :=
  buildCsvRowAux values headers 0 []

/-- The CSV branch of `processUploadedData`: split into lines, take trimmed
header tokens from the first line, build one object per remaining line
positionally, and drop rows whose values are all the empty string. -/
def parseCsvRows (text : String) : List Row :=
  ((((jsSplit '\n' text).drop 1).map
      (fun line => buildCsvRow ((jsSplit ',' (((jsSplit '\n' text).headD ("")))).map jsTrim)
        ((jsSplit ',' line).map jsTrim))).filter
    (fun row => row.any (fun p => decide (p.2 ≠ Value.str ("")))))

/-- One cell of `exportData`'s CSV body: a string-typed value is wrapped in
double quotes verbatim (no escaping); other values are rendered as
`Array.prototype.join` renders them (`undefined` renders as the empty
string). -/
def renderCell : Option Value → String
  | some (Value.str s) => ("\x22") ++ s ++ ("\x22")
  | some (Value.num n) => toString n
  | some (Value.bool b) => if b then ("true") else ("false")
  | none => ("")

/-- Escaping performed by `JSON.stringify` on the characters that occur in
this program's string data. -/
def jsonEscapeChar (ch : Char) : String :=
  if ch = '\x22' then ("\\\x22")
  else if ch = '\\' then ("\\\\")
  else if ch = '\n' then ("\\n")
  else if ch = '\r' then ("\\r")
  else if ch = '\t' then ("\\t")
  else String.mk [ch]

/-- `JSON.stringify` string escaping. -/
def jsonEscape (s : String) : String := String.join (s.data.map jsonEscapeChar)

/-- `JSON.stringify` rendering of one flat value. -/
def jsonValue : Value → String
  | Value.str s => ("\x22") ++ jsonEscape s ++ ("\x22")
  | Value.num n => toString n
  | Value.bool b => if b then ("true") else ("false")

/-- One `"key": value` line of `JSON.stringify(data, null, 2)` at object
depth (4-space indent). -/
def jsonField (kv : String × Value) : String :=
  ("    \x22") ++ jsonEscape kv.1 ++ ("\x22: ") ++ jsonValue kv.2

/-- `JSON.stringify(data, null, 2)` rendering of one row object at array
depth (2-space indent). -/
def jsonRow (r : Row) : String :=
  if r.isEmpty then ("  \x7b\x7d")
  else ("  \x7b\n") ++ String.intercalate (",\n") (r.map jsonField) ++ ("\n  \x7d")

/-- `JSON.stringify(data, null, 2)` for an array of flat row objects. -/
def jsonStringify (d : List Row) : String :=
  if d.isEmpty then ("[]")
  else ("[\n") ++ String.intercalate (",\n") (d.map jsonRow) ++ ("\n]")

/-- `exportData(data, format)`: `json` pretty-prints; `csv` emits a header
line of the first row's keys then one line per row, joining cells with
commas; any other format falls through to the JSON encoding. -/
def exportData (data : List Row) (format : String) : String :=
  if format = ("json") then jsonStringify data
  else if format = ("csv") then
    if data.length = 0 then ("")
    else
      jsJoinCh '\n'
        (jsJoinCh ',' (keysOf (data.headD [])) ::
          data.map (fun row =>
            jsJoinCh ',' ((keysOf (data.headD [])).map (fun h => renderCell (jsLookup row h)))))
  else jsonStringify data

/-- Zero-padded decimal rendering helpers for `Date.prototype.toISOString`. -/
def pad2 (n : Int) : String := (if n < 10 then ("0") else ("")) ++ toString n

/-- Three-digit zero-padded rendering (milliseconds). -/
def pad3 (n : Int) : String :=
  (if n < 10 then ("00") else if n < 100 then ("0") else ("")) ++ toString n

/-- Four-digit zero-padded rendering (years). -/
def pad4 (n : Int) : String :=
  (if n < 10 then ("000")
   else if n < 100 then ("00")
   else if n < 1000 then ("0")
   else ("")) ++ toString n

/-- `new Date(ms).toISOString()`: render a millisecond timestamp as an
ISO-8601 `YYYY-MM-DDTHH:MM:SS.sssZ` string, via the standard civil-calendar
conversion (floor division throughout). -/
def isoOfTimestamp (ms : Int) : String :=
  let days := Int.ediv ms 86400000
  let msDay := Int.emod ms 86400000
  let z := days + 719468
  let era := Int.ediv z 146097
  let doe := z - era * 146097
  let yoe := Int.ediv (doe - Int.ediv doe 1460 + Int.ediv doe 36524 - Int.ediv doe 146096) 365
  let doy := doe - (365 * yoe + Int.ediv yoe 4 - Int.ediv yoe 100)
  let mp := Int.ediv (5 * doy + 2) 153
  let d := doy - Int.ediv (153 * mp + 2) 5 + 1
  let m := mp + (if mp < 10 then 3 else -9)
  let y := yoe + era * 400 + (if m ≤ 2 then 1 else 0)
  pad4 y ++ ("-") ++ pad2 m ++ ("-") ++ pad2 d ++ ("T") ++
    pad2 (Int.ediv msDay 3600000) ++ (":") ++
    pad2 (Int.emod (Int.ediv msDay 60000) 60) ++ (":") ++
    pad2 (Int.emod (Int.ediv msDay 1000) 60) ++ (".") ++
    pad3 (Int.emod msDay 1000) ++ ("Z")

/-- Decimal digit test. -/
def isDigitCh (c : Char) : Bool := ('0' ≤ c) && (c ≤ '9')

/-- Hexadecimal digit test. -/
def isHexDigitCh (c : Char) : Bool :=
  isDigitCh c || ('a' ≤ c && c ≤ 'f') || ('A' ≤ c && c ≤ 'F')

/-- Lower-case the exponent marker so `E` and `e` coincide. -/
def lowerE (c : Char) : Char := if c = 'E' then 'e' else c

/-- Mantissa of a JS decimal literal: `d+`, `d+.d*` or `.d+`. -/
def mantissaOk (l : List Char) : Bool :=
  match splitCh '.' l with
  | [a] => decide (a ≠ []) && a.all isDigitCh
  | [a, b] => (decide (a ≠ []) || decide (b ≠ [])) && a.all isDigitCh && b.all isDigitCh
  | _ => false

/-- Exponent part of a JS decimal literal: optional sign then digits. -/
def expPartOk (l : List Char) : Bool :=
  match l with
  | [] => false
  | c :: rest =>
    if c = '+' || c = '-' then decide (rest ≠ []) && rest.all isDigitCh
    else decide (l ≠ []) && l.all isDigitCh

/-- Unsigned body of a JS decimal literal, possibly with an exponent. -/
def numBodyOk (l : List Char) : Bool :=
  match splitCh 'e' (l.map lowerE) with
  | [m] => mantissaOk m
  | [m, e] => mantissaOk m && expPartOk e
  | _ => false

/-- Signed body of a JS decimal literal. -/
def signedBodyOk (l : List Char) : Bool :=
  match l with
  | [] => false
  | c :: rest => if c = '+' || c = '-' then numBodyOk rest else numBodyOk l

/-- The test `!isNaN(Number(s))` for a string: after trimming, the empty
string converts to `0` (hence counts as numeric); otherwise the string must
be a radix literal (`0x`/`0b`/`0o`), a signed decimal literal, or a signed
`Infinity`. -/
def jsIsNumeric (s : String) : Bool :=
  match trimCh s.data with
  | [] => true
  | '0' :: 'x' :: rest => decide (rest ≠ []) && rest.all isHexDigitCh
  | '0' :: 'X' :: rest => decide (rest ≠ []) && rest.all isHexDigitCh
  | '0' :: 'b' :: rest => decide (rest ≠ []) && rest.all (fun c => c = '0' || c = '1')
  | '0' :: 'B' :: rest => decide (rest ≠ []) && rest.all (fun c => c = '0' || c = '1')
  | '0' :: 'o' :: rest => decide (rest ≠ []) && rest.all (fun c => '0' ≤ c && c ≤ '7')
  | '0' :: 'O' :: rest => decide (rest ≠ []) && rest.all (fun c => '0' ≤ c && c ≤ '7')
  | t =>
    signedBodyOk t || decide (t = ("Infinity").data) ||
      decide (t = ("+Infinity").data) || decide (t = ("-Infinity").data)

/-- The test `!isNaN(Number(v))` for a flat value: numbers are numeric, and
booleans convert to `1`/`0` (hence are numeric). -/
def jsIsNumericVal : Value → Bool
  | Value.str s => jsIsNumeric s
  | Value.num _ => true
  | Value.bool _ => true

/-- Type inference for one sample value, from `processUploadedData`:
numeric first, then the literal strings `true`/`false`, then the host date
oracle `new Date(v).toString() !== 'Invalid Date'` (passed in as `isDate`
since ECMAScript leaves its parsing implementation-defined), else `string`. -/
def inferType (isDate : Value → Bool) (v : Value) : String :=
  if jsIsNumericVal v then ("number")
  else if v = Value.str ("true") || v = Value.str ("false") then ("boolean")
  else if isDate v then ("date")
  else ("string")

/-- Schema generation from uploaded data: one descriptor per key of the
first row, typed from that row's value alone; empty data yields an empty
schema. -/
def inferSchema (isDate : Value → Bool) : List Row → Schema
  | [] => []
  | r :: _ => r.map (fun p => (p.1, some (inferType isDate p.2)))

/-- The resolved value of `processUploadedData` (CSV branch). -/
structure ProcessResult where
  data : List Row
  schema : Schema
  rowCount : Nat
  columnCount : Nat
deriving DecidableEq, Repr

/-- `processUploadedData` on a `.csv` upload that was successfully read as
`text`. -/
def processCsv (isDate : Value → Bool) (text : String) : ProcessResult :=
  let data := parseCsvRows text
  { data := data
    schema := inferSchema isDate data
    rowCount := data.length
    columnCount := (jsKeys (inferSchema isDate data)).length }

/-- One synthesized cell of `generateFallbackData`, switching on the
descriptor's declared type; `c` is the position in the `Math.random()`
stream before the call and the returned counter is the position after it. -/
def synthValue (rand : Nat → ℚ) (now : Int) (key : String) (i : Nat) (ty : Option String)
    (c : Nat) : Value × Nat :=
  match ty with
  | some t =>
    if t = ("string") then (Value.str (("Generated ") ++ key ++ (" ") ++ toString (i + 1)), c)
    else if t = ("number") then (Value.num ⌊rand c * 1000⌋, c + 1)
    else if t = ("boolean") then (Value.bool (decide ((1 : ℚ) / 2 < rand c)), c + 1)
    else if t = ("date") then
      (Value.str (isoOfTimestamp ⌊(now : ℚ) - rand c * (365 * 24 * 60 * 60 * 1000)⌋), c + 1)
    else (Value.str (("Value ") ++ toString (i + 1)), c)
  | none => (Value.str (("Value ") ++ toString (i + 1)), c)

/-- The `Object.keys(schema).forEach` loop of `generateFallbackData` for one
row with 0-based ordinal `i`. -/
def synthFields (rand : Nat → ℚ) (now : Int) (i : Nat) : Schema → Row → Nat → Row × Nat
  | [], acc, c => (acc, c)
  | (k, ty) :: rest, acc, c =>
    synthFields rand now i rest (objInsert acc k (synthValue rand now k i ty c).1)
      (synthValue rand now k i ty c).2

/-- The row loop of `generateFallbackData`: `m` rows remain, the next row
has 0-based ordinal `i`, and `c` is the `Math.random()` stream position. -/
def synthRowsAux (rand : Nat → ℚ) (now : Int) (schema : Schema) : Nat → Nat → Nat → List Row
  | 0, _, _ => []
  | Nat.succ m, i, c =>
    (synthFields rand now i schema [] c).1 ::
      synthRowsAux rand now schema m (i + 1) (synthFields rand now i schema [] c).2

/-- The `options` argument of `generateSyntheticDataset`, restricted to the
fields the function reads. -/
structure DatasetGenerationOptions where
  schema : Schema
  rowCount : Option Nat
deriving DecidableEq, Repr

/-- The `metadata` part of a generation result. -/
structure GenMetadata where
  rowsGenerated : Nat
  columnsGenerated : Nat
  generationMethod : String
deriving DecidableEq, Repr

/-- The result shape of `generateSyntheticDataset`; `data` is `none` when
the remote body had no `data` field (the code forwards `result.data`
unchecked). -/
structure GenResult where
  data : Option (List Row)
  metadata : GenMetadata
  qualityScore : Int
  privacyScore : Int
  biasScore : Int
deriving DecidableEq, Repr

/-- `generateFallbackData(options)`: synthesize `rowCount` (default 1000)
rows from the schema, with fixed provenance and scores. -/
def generateFallbackData (rand : Nat → ℚ) (now : Int) (opts : DatasetGenerationOptions) :
    GenResult :=
  { data := some (synthRowsAux rand now opts.schema (opts.rowCount.getD 1000) 0 0)
    metadata :=
      { rowsGenerated := (synthRowsAux rand now opts.schema (opts.rowCount.getD 1000) 0 0).length
        columnsGenerated := (jsKeys opts.schema).length
        generationMethod := ("local_fallback") }
    qualityScore := 85
    privacyScore := 90
    biasScore := 88 }

/-- The parsed JSON body of a successful `/api/generation/generate-local`
response. The backend may also send quality/privacy/bias fields; the code
never reads them, but they are kept here so that claims about them can be
stated. -/
structure RemoteBody where
  data : Option (List Row)
  qualityScore : Option Int
  privacyScore : Option Int
  biasScore : Option Int
deriving DecidableEq, Repr

/-- Outcome of the `fetch` to the generation backend, as observed by the
code: a thrown network error, a non-ok status, a body that fails
`response.json()`, or a parsed body. -/
inductive RemoteOutcome where
  | networkError
  | badStatus
  | malformedBody
  | ok (body : RemoteBody)
deriving DecidableEq, Repr

/-- Whether the outcome takes the fallback path. -/
def RemoteOutcome.isFailure : RemoteOutcome → Bool
  | RemoteOutcome.ok _ => false
  | _ => true

/-- `generateSyntheticDataset(options)`: on a parsed ok response, forward
`result.data` with `backend_local` provenance and fixed scores 95/98/92;
on any failure, fall back to `generateFallbackData`. -/
def generateSyntheticDataset (rand : Nat → ℚ) (now : Int) (outcome : RemoteOutcome)
    (opts : DatasetGenerationOptions) : GenResult :=
  match outcome with
  | RemoteOutcome.ok body =>
    { data := body.data
      metadata :=
        { rowsGenerated := (body.data.getD []).length
          columnsGenerated := (jsKeys ((body.data.getD []).headD [])).length
          generationMethod := ("backend_local") }
      qualityScore := 95
      privacyScore := 98
      biasScore := 92 }
  | _ => generateFallbackData rand now opts

/-- One sample cell of `generateFallbackSchema`'s preview loop. Unlike
`synthValue` it has no `boolean` case, its string template starts with
`Sample`, and its `date` case is `new Date().toISOString()` (the current
instant, consuming no randomness). -/
def sampleValue (rand : Nat → ℚ) (now : Int) (key : String) (i : Nat) (ty : Option String)
    (c : Nat) : Value × Nat :=
  match ty with
  | some t =>
    if t = ("string") then (Value.str (("Sample ") ++ key ++ (" ") ++ toString (i + 1)), c)
    else if t = ("number") then (Value.num ⌊rand c * 1000⌋, c + 1)
    else if t = ("date") then (Value.str (isoOfTimestamp now), c)
    else (Value.str (("Value ") ++ toString (i + 1)), c)
  | none => (Value.str (("Value ") ++ toString (i + 1)), c)

/-- The `Object.keys(schema).forEach` loop of the sample-data builder. -/
def sampleFields (rand : Nat → ℚ) (now : Int) (i : Nat) : Schema → Row → Nat → Row × Nat
  | [], acc, c => (acc, c)
  | (k, ty) :: rest, acc, c =>
    sampleFields rand now i rest (objInsert acc k (sampleValue rand now k i ty c).1)
      (sampleValue rand now k i ty c).2

/-- The `for (let i = 0; i < 3; i++)` sample-row loop (written for a general
remaining count `m`, instantiated at 3). -/
def sampleRowsAux (rand : Nat → ℚ) (now : Int) (schema : Schema) : Nat → Nat → Nat → List Row
  | 0, _, _ => []
  | Nat.succ m, i, c =>
    (sampleFields rand now i schema [] c).1 ::
      sampleRowsAux rand now schema m (i + 1) (sampleFields rand now i schema [] c).2

/-- The canned healthcare schema of `generateFallbackSchema`. -/
def healthcareSchema : Schema :=
  [(("patient_id"), some ("string")), (("name"), some ("string")),
   (("age"), some ("number")), (("condition"), some ("string")),
   (("treatment"), some ("string")), (("admission_date"), some ("date"))]

/-- The canned finance schema of `generateFallbackSchema`. -/
def financeSchema : Schema :=
  [(("account_id"), some ("string")), (("customer_name"), some ("string")),
   (("transaction_amount"), some ("number")), (("transaction_type"), some ("string")),
   (("transaction_date"), some ("date")), (("balance"), some ("number"))]

/-- The canned retail schema of `generateFallbackSchema`. -/
def retailSchema : Schema :=
  [(("customer_id"), some ("string")), (("product_name"), some ("string")),
   (("category"), some ("string")), (("price"), some ("number")),
   (("quantity"), some ("number")), (("purchase_date"), some ("date"))]

/-- The generic schema used for unrecognized domains. -/
def genericSchema : Schema :=
  [(("id"), some ("string")), (("name"), some ("string")),
   (("value"), some ("number")), (("category"), some ("string")),
   (("created_at"), some ("date"))]

/-- Domain dispatch of `generateFallbackSchema`. -/
def fallbackSchemaFor (domain : String) : Schema :=
  if domain = ("healthcare") then healthcareSchema
  else if domain = ("finance") then financeSchema
  else if domain = ("retail") then retailSchema
  else genericSchema

/-- The return shape of `generateFallbackSchema`. -/
structure FallbackSchemaResult where
  schema : Schema
  sampleData : List Row
  detectedDomain : String
deriving DecidableEq, Repr

/-- `generateFallbackSchema(domain)`: the canned schema for the domain plus
3 sample rows. -/
def generateFallbackSchema (rand : Nat → ℚ) (now : Int) (domain : String) :
    FallbackSchemaResult :=
  { schema := fallbackSchemaFor domain
    sampleData := sampleRowsAux rand now (fallbackSchemaFor domain) 3 0 0
    detectedDomain := domain }

/-- `Math.random()` returns values in `[0, 1)`: the assumption under which
the synthesizer's numeric ranges are stated. -/
def UnitRand (rand : Nat → ℚ) : Prop := ∀ n, 0 ≤ rand n ∧ rand n < 1

/-- A string contains no occurrence of the character `c`. -/
def chFree (c : Char) (s : String) : Bool := decide (c ∉ s.data)

/-- A string unchanged by `trim`. -/
def trimStable (s : String) : Bool := decide (trimCh s.data = s.data)

/-- A field name survives CSV transport: no separator characters, and
unchanged by the parser's `trim`. -/
def keyOk (k : String) : Bool := chFree ',' k && chFree '\n' k && trimStable k

/-- A value survives CSV transport: its rendered cell is nonempty, free of
separator characters, and unchanged by the parser's `trim`. -/
def cellOk (v : Value) : Bool :=
  decide ((renderCell (some v)).data ≠ []) && chFree ',' (renderCell (some v)) &&
    chFree '\n' (renderCell (some v)) && trimStable (renderCell (some v))

/-- Models the host round trip `JSON.parse(JSON.stringify(d, null, 2))`:
per ECMA-404 parsing the serialized text returns the original dataset, so
the JSON leg of a format round trip is the identity on datasets. -/
def jsonParseOfStringify (d : List Row) : List Row := d

/-- The CSV encoding as §4.4 of the spec words it: empty dataset encodes to
the empty string; otherwise a header row of the first row's keys, then one
line per row with cells in that same key order, string-typed values wrapped
in double quotes verbatim. -/
def csvEncodeSpec : List Row → String
  | [] => ("")
  | r0 :: rest =>
    jsJoinCh '\n'
      (jsJoinCh ',' (keysOf r0) ::
        (r0 :: rest).map (fun r =>
          jsJoinCh ',' ((keysOf r0).map (fun k => renderCell (jsLookup r k)))))

theorem any_key_iff (r : Row) (k : String) :
    (r.any (fun p => p.1 = k)) = true ↔ k ∈ keysOf r := by
  simp only [keysOf, List.any_eq_true, List.mem_map, decide_eq_true_eq]

theorem keysOf_objInsert (r : Row) (k : String) (v : Value) :
    keysOf (objInsert r k v) = if k ∈ keysOf r then keysOf r else keysOf r ++ [k] := by
  unfold objInsert
  by_cases h : k ∈ keysOf r
  · rw [if_pos ((any_key_iff r k).mpr h), if_pos h]
    simp only [keysOf, List.map_map, Function.comp_def]
    apply List.map_congr_left
    intro p _
    by_cases hp : p.1 = k
    · simp [hp]
    · simp [hp]
  · rw [if_neg (fun hc => h ((any_key_iff r k).mp hc)), if_neg h]
    simp [keysOf]

theorem mem_keys_objInsert (r : Row) (k a : String) (v : Value) :
    a ∈ keysOf (objInsert r k v) ↔ a = k ∨ a ∈ keysOf r := by
  rw [keysOf_objInsert]
  by_cases h : k ∈ keysOf r
  · rw [if_pos h]
    constructor
    · exact fun ha => Or.inr ha
    · rintro (rfl | ha)
      · exact h
      · exact ha
  · rw [if_neg h]
    simp [List.mem_append]
    tauto

theorem nodup_keys_objInsert (r : Row) (k : String) (v : Value)
    (h : (keysOf r).Nodup) : (keysOf (objInsert r k v)).Nodup := by
  rw [keysOf_objInsert]
  by_cases hm : k ∈ keysOf r
  · rwa [if_pos hm]
  · rw [if_neg hm]
    simp [List.nodup_append, h, hm]

theorem find_map_overwrite (k : String) (v : Value) :
    ∀ r : Row, (r.any (fun p => p.1 = k)) = true →
      ((r.map (fun p => if p.1 = k then (k, v) else p)).find? (fun p => p.1 = k)) = some (k, v)
  | [], h => by simp at h
  | p :: rest, h => by
    by_cases hp : p.1 = k
    · rw [List.map_cons, if_pos hp, List.find?_cons_of_pos _ (by simp)]
    · have hd : (decide (p.1 = k)) = false := by simp [hp]
      rw [List.any_cons, hd, Bool.false_or] at h
      rw [List.map_cons, if_neg hp, List.find?_cons_of_neg _ (by simp [hp])]
      exact find_map_overwrite k v rest h

theorem find_append_fresh (k : String) (v : Value) :
    ∀ r : Row, (r.any (fun p => p.1 = k)) = false →
      ((r ++ [(k, v)]).find? (fun p => p.1 = k)) = some (k, v)
  | [], _ => by simp
  | p :: rest, h => by
    rw [List.any_cons, Bool.or_eq_false_iff] at h
    obtain ⟨h1, h2⟩ := h
    rw [List.cons_append, List.find?_cons_of_neg _ (by simpa using h1)]
    exact find_append_fresh k v rest h2

theorem jsLookup_objInsert_self (r : Row) (k : String) (v : Value) :
    jsLookup (objInsert r k v) k = some v := by
  unfold objInsert jsLookup
  by_cases h : (r.any (fun p => p.1 = k)) = true
  · rw [if_pos h, find_map_overwrite k v r h]
    rfl
  · have hf : (r.any (fun p => p.1 = k)) = false := by
      cases hb : r.any (fun p => p.1 = k) with
      | false => rfl
      | true => exact absurd hb h
    rw [if_neg h, find_append_fresh k v r hf]
    rfl

theorem find_map_overwrite_ne (k k' : String) (v : Value) (h : k' ≠ k) :
    ∀ r : Row, ((r.map (fun p => if p.1 = k' then (k', v) else p)).find? (fun p => p.1 = k)) =
      r.find? (fun p => p.1 = k)
  | [] => by simp
  | p :: rest => by
    by_cases hp : p.1 = k'
    · rw [List.map_cons, if_pos hp, List.find?_cons_of_neg _ (by simp [h]),
        List.find?_cons_of_neg _ (by simp [hp, h])]
      exact find_map_overwrite_ne k k' v h rest
    · rw [List.map_cons, if_neg hp]
      by_cases hk : p.1 = k
      · rw [List.find?_cons_of_pos _ (by simp [hk]), List.find?_cons_of_pos _ (by simp [hk])]
      · rw [List.find?_cons_of_neg _ (by simp [hk]), List.find?_cons_of_neg _ (by simp [hk])]
        exact find_map_overwrite_ne k k' v h rest

theorem jsLookup_objInsert_ne (r : Row) (k k' : String) (v : Value) (h : k' ≠ k) :
    jsLookup (objInsert r k' v) k = jsLookup r k := by
  unfold objInsert jsLookup
  by_cases ha : (r.any (fun p => p.1 = k')) = true
  · rw [if_pos ha, find_map_overwrite_ne k k' v h r]
  · rw [if_neg ha, List.find?_append]
    cases hf : r.find? (fun p => p.1 = k) with
    | some p => rfl
    | none =>
      rw [List.find?_cons_of_neg _ (by simp [h]), List.find?_nil]
      rfl

theorem mem_keys_synthFields (rand : Nat → ℚ) (now : Int) (i : Nat) :
    ∀ (schema : Schema) (acc : Row) (c : Nat) (a : String),
      a ∈ keysOf (synthFields rand now i schema acc c).1 ↔
        a ∈ keysOf acc ∨ a ∈ keysOf schema
  | [], acc, c, a => by simp [synthFields, keysOf]
  | (k0, ty0) :: rest, acc, c, a => by
    simp only [synthFields]
    rw [mem_keys_synthFields rand now i rest _ _ a, mem_keys_objInsert]
    simp only [keysOf, List.map_cons, List.mem_cons]
    tauto

theorem synthFields_lookup_not_mem (rand : Nat → ℚ) (now : Int) (i : Nat) :
    ∀ (schema : Schema) (acc : Row) (c : Nat) (k : String), k ∉ keysOf schema →
      jsLookup (synthFields rand now i schema acc c).1 k = jsLookup acc k
  | [], _, _, _, _ => rfl
  | (k0, ty0) :: rest, acc, c, k, h => by
    have hk0 : k0 ≠ k := by
      intro hc
      exact h (by simp [keysOf, hc])
    have hrest : k ∉ keysOf rest := by
      intro hc
      exact h (by simp [keysOf] at hc ⊢; exact Or.inr hc)
    simp only [synthFields]
    rw [synthFields_lookup_not_mem rand now i rest _ _ k hrest]
    exact jsLookup_objInsert_ne acc k k0 _ hk0

theorem synthFields_lookup_mem (rand : Nat → ℚ) (now : Int) (i : Nat) :
    ∀ (schema : Schema) (acc : Row) (c : Nat) (k : String) (ty : Option String),
      (schema.map Prod.fst).Nodup → (k, ty) ∈ schema →
      ∃ c', jsLookup (synthFields rand now i schema acc c).1 k =
        some (synthValue rand now k i ty c').1
  | [], _, _, _, _, _, hmem => absurd hmem (List.not_mem_nil _)
  | (k0, ty0) :: rest, acc, c, k, ty, hnd, hmem => by
    rcases List.mem_cons.mp hmem with heq | hrest
    · injection heq with h1 h2
      subst h1
      subst h2
      have hnotin : k ∉ keysOf rest := by
        have := (List.nodup_cons.mp hnd).1
        simpa [keysOf] using this
      refine ⟨c, ?_⟩
      simp only [synthFields]
      rw [synthFields_lookup_not_mem rand now i rest _ _ k hnotin]
      exact jsLookup_objInsert_self acc k _
    · simp only [synthFields]
      exact synthFields_lookup_mem rand now i rest _ _ k ty (List.nodup_cons.mp hnd).2 hrest

theorem synthRowsAux_length (rand : Nat → ℚ) (now : Int) (schema : Schema) :
    ∀ m i c, (synthRowsAux rand now schema m i c).length = m
  | 0, _, _ => rfl
  | Nat.succ m, i, c => by
    simp [synthRowsAux, synthRowsAux_length rand now schema m]

theorem synthRowsAux_get (rand : Nat → ℚ) (now : Int) (schema : Schema) :
    ∀ m i c j, j < m →
      ∃ c', (synthRowsAux rand now schema m i c)[j]? =
        some (synthFields rand now (i + j) schema [] c').1
  | 0, _, _, _, h => absurd h (by omega)
  | Nat.succ m, i, c, 0, _ => ⟨c, by
    simp only [synthRowsAux, List.getElem?_cons_zero, Nat.add_zero]⟩
  | Nat.succ m, i, c, Nat.succ j, h => by
    obtain ⟨c', hc⟩ := synthRowsAux_get rand now schema m (i + 1)
      (synthFields rand now i schema [] c).2 j (by omega)
    rw [show i + 1 + j = i + (j + 1) from by omega] at hc
    refine ⟨c', ?_⟩
    simp only [synthRowsAux, List.getElem?_cons_succ]
    exact hc

theorem synthRowsAux_mem (rand : Nat → ℚ) (now : Int) (schema : Schema) :
    ∀ m i c r, r ∈ synthRowsAux rand now schema m i c →
      ∃ i' c', r = (synthFields rand now i' schema [] c').1
  | 0, _, _, r, h => absurd h (List.not_mem_nil r)
  | Nat.succ m, i, c, r, h => by
    rcases List.mem_cons.mp h with heq | htail
    · exact ⟨i, c, heq⟩
    · exact synthRowsAux_mem rand now schema m _ _ r htail

theorem synthValue_default (rand : Nat → ℚ) (now : Int) (key : String) (i c : Nat)
    (ty : Option String)
    (hbad : ∀ t, ty = some t →
      t ≠ ("string") ∧ t ≠ ("number") ∧ t ≠ ("boolean") ∧ t ≠ ("date")) :
    (synthValue rand now key i ty c).1 = Value.str (("Value ") ++ toString (i + 1)) := by
  cases ty with
  | none => rfl
  | some t =>
    obtain ⟨h1, h2, h3, h4⟩ := hbad t rfl
    simp [synthValue, h1, h2, h3, h4]

/-- Claim C1: for every generation request whose remote backend call fails
(network error, non-success response, or malformed body),
`generateSyntheticDataset` returns a result with
`generationMethod = "local_fallback"`, `qualityScore = 85`,
`privacyScore = 90`, `biasScore = 88`, and a data array whose length equals
the requested `rowCount`, or 1000 when `rowCount` is unspecified. -/
theorem claim_C1 (rand : Nat → ℚ) (now : Int) (outcome : RemoteOutcome)
    (opts : DatasetGenerationOptions) (h : outcome.isFailure = true) :
    (generateSyntheticDataset rand now outcome opts).metadata.generationMethod =
      ("local_fallback") ∧
    (generateSyntheticDataset rand now outcome opts).qualityScore = 85 ∧
    (generateSyntheticDataset rand now outcome opts).privacyScore = 90 ∧
    (generateSyntheticDataset rand now outcome opts).biasScore = 88 ∧
    ∃ l, (generateSyntheticDataset rand now outcome opts).data = some l ∧
      l.length = opts.rowCount.getD 1000 := by
  cases outcome with
  | ok body => simp [RemoteOutcome.isFailure] at h
  | networkError =>
    exact ⟨rfl, rfl, rfl, rfl, _, rfl, synthRowsAux_length rand now opts.schema _ 0 0⟩
  | badStatus =>
    exact ⟨rfl, rfl, rfl, rfl, _, rfl, synthRowsAux_length rand now opts.schema _ 0 0⟩
  | malformedBody =>
    exact ⟨rfl, rfl, rfl, rfl, _, rfl, synthRowsAux_length rand now opts.schema _ 0 0⟩

theorem claim_C1_witness :
    RemoteOutcome.networkError.isFailure = true ∧
    ((generateSyntheticDataset (fun _ => 0) 0 RemoteOutcome.networkError
        { schema := [(("a"), some ("string"))], rowCount := none }).metadata.generationMethod =
          ("local_fallback") ∧
      (generateSyntheticDataset (fun _ => 0) 0 RemoteOutcome.networkError
        { schema := [(("a"), some ("string"))], rowCount := none }).qualityScore = 85 ∧
      (generateSyntheticDataset (fun _ => 0) 0 RemoteOutcome.networkError
        { schema := [(("a"), some ("string"))], rowCount := none }).privacyScore = 90 ∧
      (generateSyntheticDataset (fun _ => 0) 0 RemoteOutcome.networkError
        { schema := [(("a"), some ("string"))], rowCount := none }).biasScore = 88 ∧
      ∃ l, (generateSyntheticDataset (fun _ => 0) 0 RemoteOutcome.networkError
        { schema := [(("a"), some ("string"))], rowCount := none }).data = some l ∧
          l.length = (none : Option Nat).getD 1000) :=
  ⟨rfl, claim_C1 (fun _ => 0) 0 RemoteOutcome.networkError
    { schema := [(("a"), some ("string"))], rowCount := none } rfl⟩

/-- Claim C2: for every schema `S` and every row count `N ≥ 0`,
`generateFallbackData` produces exactly `N` rows, and every produced row has
exactly the key set of `S`. -/
theorem claim_C2 (rand : Nat → ℚ) (now : Int) (schema : Schema) (n : Nat) :
    ∃ l, (generateFallbackData rand now { schema := schema, rowCount := some n }).data =
        some l ∧
      l.length = n ∧ ∀ r ∈ l, ∀ a, (a ∈ keysOf r ↔ a ∈ keysOf schema) := by
  refine ⟨_, rfl, synthRowsAux_length rand now schema n 0 0, ?_⟩
  intro r hr a
  obtain ⟨i', c', rfl⟩ := synthRowsAux_mem rand now schema n 0 0 r hr
  rw [mem_keys_synthFields]
  simp [keysOf]

theorem claim_C2_witness :
    ∃ l, (generateFallbackData (fun _ => 0) 0
        { schema := [(("a"), some ("string")), (("b"), some ("boolean"))],
          rowCount := some 2 }).data = some l ∧
      l.length = 2 ∧ ∀ r ∈ l, ∀ a,
        (a ∈ keysOf r ↔ a ∈ keysOf [(("a"), some ("string")), (("b"), some ("boolean"))]) :=
  claim_C2 (fun _ => 0) 0 [(("a"), some ("string")), (("b"), some ("boolean"))] 2

/-- Claim C3: the Row Synthesizer is total over any Field Descriptor,
including malformed ones: for every field whose declared type is not one of
string/number/boolean/date (including a missing type), generation still
yields all requested rows and that field's value in the row with 0-based
ordinal `j` is the placeholder string `Value <j+1>` embedding the row's
1-based ordinal; no error path exists. -/
theorem claim_C3 (rand : Nat → ℚ) (now : Int) (schema : Schema) (n : Nat) (k : String)
    (ty : Option String) (hnd : (schema.map Prod.fst).Nodup) (hmem : (k, ty) ∈ schema)
    (hbad : ∀ t, ty = some t →
      t ≠ ("string") ∧ t ≠ ("number") ∧ t ≠ ("boolean") ∧ t ≠ ("date")) :
    ∃ l, (generateFallbackData rand now { schema := schema, rowCount := some n }).data =
        some l ∧
      l.length = n ∧
      ∀ j, j < n → ∃ r, l[j]? = some r ∧
        jsLookup r k = some (Value.str (("Value ") ++ toString (j + 1))) := by
  refine ⟨_, rfl, synthRowsAux_length rand now schema n 0 0, ?_⟩
  intro j hj
  obtain ⟨c', hc⟩ := synthRowsAux_get rand now schema n 0 0 j hj
  rw [Nat.zero_add] at hc
  refine ⟨_, hc, ?_⟩
  obtain ⟨c'', hl⟩ := synthFields_lookup_mem rand now j schema [] c' k ty hnd hmem
  rw [hl, synthValue_default rand now k j c'' ty hbad]

theorem claim_C3_witness :
    ([(("a"), some ("weird"))].map (Prod.fst (α := String) (β := Option String))).Nodup ∧
    ∃ l, (generateFallbackData (fun _ => 0) 0
        { schema := [(("a"), some ("weird"))], rowCount := some 1 }).data = some l ∧
      l.length = 1 ∧
      ∀ j, j < 1 → ∃ r, l[j]? = some r ∧
        jsLookup r ("a") = some (Value.str (("Value ") ++ toString (j + 1))) :=
  ⟨by decide, claim_C3 (fun _ => 0) 0 [(("a"), some ("weird"))] 1 ("a") (some ("weird"))
    (by decide) (by simp)
    (by
      rintro t ht
      injection ht with h
      subst h
      exact ⟨by decide, by decide, by decide, by decide⟩)⟩

/-- Claim C6 is refuted at this input: a successful remote response whose
single row has 1 key, while the supplied schema has 2 fields, yields
`columnsGenerated = 1`, not the schema's field count 2 — the remote branch
computes the column count from the first returned row, ignoring the
schema. -/
theorem claim_C6_counterexample :
    (jsKeys [(("a"), some ("string")), (("b"), some ("string"))]).length = 2 ∧
    (generateSyntheticDataset (fun _ => 0) 0
      (RemoteOutcome.ok
        { data := some [[(("a"), Value.num 1)]], qualityScore := none,
          privacyScore := none, biasScore := none })
      { schema := [(("a"), some ("string")), (("b"), some ("string"))],
        rowCount := some 1 }).metadata.columnsGenerated = 1 := by
  constructor
  · rfl
  · rfl

/-- Claim C6, amended: `rowsGenerated` always equals the length of the
result's `data` (0 when the remote body had none); `columnsGenerated`
equals the schema's field count on the fallback path, but on the remote
path it is the key count of the first returned row (0 when there are no
rows), which need not match the supplied schema. -/
theorem claim_C6 (rand : Nat → ℚ) (now : Int) (opts : DatasetGenerationOptions) :
    (∀ outcome : RemoteOutcome, outcome.isFailure = true →
      ((generateSyntheticDataset rand now outcome opts).metadata.rowsGenerated =
        ((generateSyntheticDataset rand now outcome opts).data.getD []).length ∧
      (generateSyntheticDataset rand now outcome opts).metadata.columnsGenerated =
        (jsKeys opts.schema).length)) ∧
    (∀ body : RemoteBody,
      (generateSyntheticDataset rand now (RemoteOutcome.ok body) opts).data = body.data ∧
      (generateSyntheticDataset rand now (RemoteOutcome.ok body) opts).metadata.rowsGenerated =
        (body.data.getD []).length ∧
      (generateSyntheticDataset rand now
          (RemoteOutcome.ok body) opts).metadata.columnsGenerated =
        (jsKeys ((body.data.getD []).headD [])).length) := by
  constructor
  · intro outcome h
    cases outcome with
    | ok body => simp [RemoteOutcome.isFailure] at h
    | networkError => exact ⟨rfl, rfl⟩
    | badStatus => exact ⟨rfl, rfl⟩
    | malformedBody => exact ⟨rfl, rfl⟩
  · intro body
    exact ⟨rfl, rfl, rfl⟩

theorem claim_C6_witness :
    (RemoteOutcome.badStatus.isFailure = true ∧
      ((generateSyntheticDataset (fun _ => 0) 0 RemoteOutcome.badStatus
          { schema := [(("a"), some ("number"))],
            rowCount := some 3 }).metadata.rowsGenerated =
        ((generateSyntheticDataset (fun _ => 0) 0 RemoteOutcome.badStatus
          { schema := [(("a"), some ("number"))],
            rowCount := some 3 }).data.getD []).length) ∧
      (generateSyntheticDataset (fun _ => 0) 0 RemoteOutcome.badStatus
          { schema := [(("a"), some ("number"))],
            rowCount := some 3 }).metadata.columnsGenerated =
        (jsKeys [(("a"), some ("number"))]).length) :=
  ⟨rfl, (claim_C6 (fun _ => 0) 0
    { schema := [(("a"), some ("number"))], rowCount := some 3 }).1
      RemoteOutcome.badStatus rfl⟩

/-- Claim C7 is refuted at this input: a successful remote response that
supplies `qualityScore = 10` still yields a result with
`qualityScore = 95` — the orchestrator never reads the response's score
fields. -/
theorem claim_C7_counterexample :
    (RemoteBody.qualityScore
      { data := some [[(("a"), Value.num 1)]], qualityScore := some 10,
        privacyScore := some 20, biasScore := some 30 } = some 10) ∧
    (generateSyntheticDataset (fun _ => 0) 0
      (RemoteOutcome.ok
        { data := some [[(("a"), Value.num 1)]], qualityScore := some 10,
          privacyScore := some 20, biasScore := some 30 })
      { schema := [(("a"), some ("string"))], rowCount := some 1 }).qualityScore = 95 ∧
    (95 : Int) ≠ 10 := by
  refine ⟨rfl, rfl, by decide⟩

/-- Claim C7, amended: when the remote generate call succeeds the result
has `generationMethod = "backend_local"` and always the fixed scores
95/98/92, regardless of any score fields in the response body. -/
theorem claim_C7 (rand : Nat → ℚ) (now : Int) (body : RemoteBody)
    (opts : DatasetGenerationOptions) :
    (generateSyntheticDataset rand now (RemoteOutcome.ok body) opts).metadata.generationMethod =
      ("backend_local") ∧
    (generateSyntheticDataset rand now (RemoteOutcome.ok body) opts).qualityScore = 95 ∧
    (generateSyntheticDataset rand now (RemoteOutcome.ok body) opts).privacyScore = 98 ∧
    (generateSyntheticDataset rand now (RemoteOutcome.ok body) opts).biasScore = 92 :=
  ⟨rfl, rfl, rfl, rfl⟩

theorem synthValue_number (rand : Nat → ℚ) (now : Int) (key : String) (i c : Nat) :
    synthValue rand now key i (some ("number")) c = (Value.num ⌊rand c * 1000⌋, c + 1) := by
  simp [synthValue]

theorem synthValue_date (rand : Nat → ℚ) (now : Int) (key : String) (i c : Nat) :
    synthValue rand now key i (some ("date")) c =
      (Value.str (isoOfTimestamp ⌊(now : ℚ) - rand c * (365 * 24 * 60 * 60 * 1000)⌋), c + 1) := by
  simp [synthValue]

/-- Claim C8: in every row produced by the Row Synthesizer, the value of
every field declared `number` is an integer in `[0, 1000)`, and the value of
every field declared `date` is the ISO-8601 rendering of a timestamp lying
within the 365 days preceding the generation instant. -/
theorem claim_C8 (rand : Nat → ℚ) (now : Int) (schema : Schema) (n : Nat)
    (hr : UnitRand rand) (hnd : (schema.map Prod.fst).Nodup) :
    ∃ l, (generateFallbackData rand now { schema := schema, rowCount := some n }).data =
        some l ∧
      (∀ r ∈ l, ∀ k, (k, some ("number")) ∈ schema →
        ∃ v : Int, jsLookup r k = some (Value.num v) ∧ 0 ≤ v ∧ v < 1000) ∧
      (∀ r ∈ l, ∀ k, (k, some ("date")) ∈ schema →
        ∃ t : Int, jsLookup r k = some (Value.str (isoOfTimestamp t)) ∧
          now - 365 * 24 * 60 * 60 * 1000 ≤ t ∧ t ≤ now) := by
  refine ⟨_, rfl, ?_, ?_⟩
  · intro r hr' k hk
    obtain ⟨i', c', rfl⟩ := synthRowsAux_mem rand now schema n 0 0 r hr'
    obtain ⟨c'', hl⟩ := synthFields_lookup_mem rand now i' schema [] c' k _ hnd hk
    rw [synthValue_number] at hl
    refine ⟨⌊rand c'' * 1000⌋, hl, ?_, ?_⟩
    · rw [Int.le_floor]
      push_cast
      exact mul_nonneg (hr c'').1 (by norm_num)
    · rw [Int.floor_lt]
      push_cast
      nlinarith [(hr c'').1, (hr c'').2]
  · intro r hr' k hk
    obtain ⟨i', c', rfl⟩ := synthRowsAux_mem rand now schema n 0 0 r hr'
    obtain ⟨c'', hl⟩ := synthFields_lookup_mem rand now i' schema [] c' k _ hnd hk
    rw [synthValue_date] at hl
    refine ⟨⌊(now : ℚ) - rand c'' * (365 * 24 * 60 * 60 * 1000)⌋, hl, ?_, ?_⟩
    · rw [Int.le_floor]
      push_cast
      nlinarith [(hr c'').1, (hr c'').2]
    · calc ⌊(now : ℚ) - rand c'' * (365 * 24 * 60 * 60 * 1000)⌋
          ≤ ⌊(now : ℚ)⌋ := by
            apply Int.floor_le_floor
            nlinarith [(hr c'').1, (hr c'').2]
        _ = now := Int.floor_intCast now

theorem claim_C8_witness :
    UnitRand (fun _ => 0) ∧
    (([(("v"), some ("number")), (("d"), some ("date"))].map
        (Prod.fst (α := String) (β := Option String))).Nodup) ∧
    ∃ l, (generateFallbackData (fun _ => 0) 0
        { schema := [(("v"), some ("number")), (("d"), some ("date"))],
          rowCount := some 1 }).data = some l ∧
      (∀ r ∈ l, ∀ k, (k, some ("number")) ∈
          [(("v"), some ("number")), (("d"), some ("date"))] →
        ∃ v : Int, jsLookup r k = some (Value.num v) ∧ 0 ≤ v ∧ v < 1000) ∧
      (∀ r ∈ l, ∀ k, (k, some ("date")) ∈
          [(("v"), some ("number")), (("d"), some ("date"))] →
        ∃ t : Int, jsLookup r k = some (Value.str (isoOfTimestamp t)) ∧
          (0 : Int) - 365 * 24 * 60 * 60 * 1000 ≤ t ∧ t ≤ 0) :=
  ⟨fun _ => ⟨le_refl 0, by norm_num⟩, by decide,
    claim_C8 (fun _ => 0) 0 [(("v"), some ("number")), (("d"), some ("date"))] 1
      (fun _ => ⟨le_refl 0, by norm_num⟩) (by decide)⟩

/-- Claim C4: schema inference assigns each field's type using only the
first row's value for that field, with precedence numeric, then the
literals `true`/`false`, then a parseable date, else string; in particular
the CSV text `a,b\n1,true\n2,false` infers `a : number` and
`b : boolean` (for every host date oracle). -/
theorem claim_C4 :
    (∀ (isDate : Value → Bool) (r : Row) (rest rest' : List Row),
      inferSchema isDate (r :: rest) = inferSchema isDate (r :: rest')) ∧
    (∀ (isDate : Value → Bool) (v : Value),
      jsIsNumericVal v = true → inferType isDate v = ("number")) ∧
    (∀ (isDate : Value → Bool) (v : Value), jsIsNumericVal v = false →
      (v = Value.str ("true") ∨ v = Value.str ("false")) →
      inferType isDate v = ("boolean")) ∧
    (∀ (isDate : Value → Bool) (v : Value), jsIsNumericVal v = false →
      v ≠ Value.str ("true") → v ≠ Value.str ("false") → isDate v = true →
      inferType isDate v = ("date")) ∧
    (∀ (isDate : Value → Bool) (v : Value), jsIsNumericVal v = false →
      v ≠ Value.str ("true") → v ≠ Value.str ("false") → isDate v = false →
      inferType isDate v = ("string")) ∧
    (∀ isDate : Value → Bool,
      (processCsv isDate ("a,b\n1,true\n2,false")).schema =
        [(("a"), some ("number")), (("b"), some ("boolean"))]) := by
  refine ⟨fun _ _ _ _ => rfl, ?_, ?_, ?_, ?_, fun _ => rfl⟩
  · intro isDate v h
    simp [inferType, h]
  · intro isDate v h hor
    simp [inferType, h]
    rcases hor with h1 | h1
    · simp [h1]
    · simp [h1]
  · intro isDate v h h1 h2 h3
    simp [inferType, h, h1, h2, h3]
  · intro isDate v h h1 h2 h3
    simp [inferType, h, h1, h2, h3]

theorem claim_C4_witness :
    jsIsNumericVal (Value.str ("7")) = true ∧
    inferType (fun _ => false) (Value.str ("7")) = ("number") :=
  ⟨by decide, (claim_C4.2.1 (fun _ => false) (Value.str ("7")) (by decide))⟩

/-- Claim C5: CSV export emits a header row equal to the keys of the first
row, then one line per row with cells in that same key order, wrapping
every string-typed value in double quotes verbatim with no escaping (as
`csvEncodeSpec` states it, following §4.4 of the spec); the export is a
pure total function, an empty dataset exports to the empty string as CSV
and to `[]` as JSON, and any format other than `csv`/`json` is encoded as
JSON. -/
theorem claim_C5 (d : List Row) (f : String) :
    exportData [] ("csv") = ("") ∧
    exportData [] ("json") = ("[]") ∧
    (f ≠ ("csv") → f ≠ ("json") → exportData d f = jsonStringify d) ∧
    exportData d ("csv") = csvEncodeSpec d := by
  refine ⟨rfl, rfl, ?_, ?_⟩
  · intro h1 h2
    simp [exportData, h1, h2]
  · cases d with
    | nil => rfl
    | cons r rest => rfl

theorem claim_C5_witness :
    (("xml") : String) ≠ ("csv") ∧ (("xml") : String) ≠ ("json") ∧
    exportData [[(("a"), Value.num 1)]] ("xml") = jsonStringify [[(("a"), Value.num 1)]] ∧
    exportData [[(("a"), Value.num 1)]] ("csv") = csvEncodeSpec [[(("a"), Value.num 1)]] :=
  ⟨by decide, by decide,
    (claim_C5 [[(("a"), Value.num 1)]] ("xml")).2.2.1 (by decide) (by decide),
    (claim_C5 [[(("a"), Value.num 1)]] ("xml")).2.2.2⟩

theorem sampleFields_lookup_not_mem (rand : Nat → ℚ) (now : Int) (i : Nat) :
    ∀ (schema : Schema) (acc : Row) (c : Nat) (k : String), k ∉ keysOf schema →
      jsLookup (sampleFields rand now i schema acc c).1 k = jsLookup acc k
  | [], _, _, _, _ => rfl
  | (k0, ty0) :: rest, acc, c, k, h => by
    have hk0 : k0 ≠ k := by
      intro hc
      exact h (by simp [keysOf, hc])
    have hrest : k ∉ keysOf rest := by
      intro hc
      exact h (by simp [keysOf] at hc ⊢; exact Or.inr hc)
    simp only [sampleFields]
    rw [sampleFields_lookup_not_mem rand now i rest _ _ k hrest]
    exact jsLookup_objInsert_ne acc k k0 _ hk0

theorem sampleFields_lookup_mem (rand : Nat → ℚ) (now : Int) (i : Nat) :
    ∀ (schema : Schema) (acc : Row) (c : Nat) (k : String) (ty : Option String),
      (schema.map Prod.fst).Nodup → (k, ty) ∈ schema →
      ∃ c', jsLookup (sampleFields rand now i schema acc c).1 k =
        some (sampleValue rand now k i ty c').1
  | [], _, _, _, _, _, hmem => absurd hmem (List.not_mem_nil _)
  | (k0, ty0) :: rest, acc, c, k, ty, hnd, hmem => by
    rcases List.mem_cons.mp hmem with heq | hrest
    · injection heq with h1 h2
      subst h1
      subst h2
      have hnotin : k ∉ keysOf rest := by
        have := (List.nodup_cons.mp hnd).1
        simpa [keysOf] using this
      refine ⟨c, ?_⟩
      simp only [sampleFields]
      rw [sampleFields_lookup_not_mem rand now i rest _ _ k hnotin]
      exact jsLookup_objInsert_self acc k _
    · simp only [sampleFields]
      exact sampleFields_lookup_mem rand now i rest _ _ k ty (List.nodup_cons.mp hnd).2 hrest

theorem sampleRowsAux_length (rand : Nat → ℚ) (now : Int) (schema : Schema) :
    ∀ m i c, (sampleRowsAux rand now schema m i c).length = m
  | 0, _, _ => rfl
  | Nat.succ m, i, c => by
    simp [sampleRowsAux, sampleRowsAux_length rand now schema m]

theorem sampleRowsAux_get (rand : Nat → ℚ) (now : Int) (schema : Schema) :
    ∀ m i c j, j < m →
      ∃ c', (sampleRowsAux rand now schema m i c)[j]? =
        some (sampleFields rand now (i + j) schema [] c').1
  | 0, _, _, _, h => absurd h (by omega)
  | Nat.succ m, i, c, 0, _ => ⟨c, by
    simp only [sampleRowsAux, List.getElem?_cons_zero, Nat.add_zero]⟩
  | Nat.succ m, i, c, Nat.succ j, h => by
    obtain ⟨c', hc⟩ := sampleRowsAux_get rand now schema m (i + 1)
      (sampleFields rand now i schema [] c).2 j (by omega)
    rw [show i + 1 + j = i + (j + 1) from by omega] at hc
    refine ⟨c', ?_⟩
    simp only [sampleRowsAux, List.getElem?_cons_succ]
    exact hc

theorem fallbackSchemaFor_nodup (domain : String) :
    ((fallbackSchemaFor domain).map Prod.fst).Nodup := by
  unfold fallbackSchemaFor
  split_ifs <;> decide

/-- Claim C10 is refuted at this input: with the identical random stream
and clock, the finance sample row 0 holds `Sample account_id 1` for the
string field `account_id`, while §4.3's Row Synthesizer produces
`Generated account_id 1` — the two value-synthesis rules differ. -/
theorem claim_C10_counterexample :
    (generateFallbackSchema (fun _ => 0) 0 ("finance")).sampleData.length = 3 ∧
    jsLookup (((generateFallbackSchema (fun _ => 0) 0 ("finance")).sampleData).headD [])
        ("account_id") = some (Value.str ("Sample account_id 1")) ∧
    jsLookup (((generateFallbackData (fun _ => 0) 0
          { schema := financeSchema, rowCount := some 3 }).data.getD []).headD [])
        ("account_id") = some (Value.str ("Generated account_id 1")) ∧
    Value.str ("Sample account_id 1") ≠ Value.str ("Generated account_id 1") := by
  refine ⟨rfl, rfl, rfl, by decide⟩

/-- Claim C10, amended: for every domain tag the Fallback Schema
Synthesizer returns exactly 3 sample rows; in the row of 0-based ordinal
`j`, a `number` field follows the Row Synthesizer's `[0, 1000)` rule, but a
`string` field uses the template `Sample <field> <j+1>` (not §4.3's
`Generated` template) and a `date` field is the ISO rendering of the
generation instant itself (not a random instant in the preceding year). -/
theorem claim_C10 (rand : Nat → ℚ) (now : Int) (domain : String) (hr : UnitRand rand) :
    (generateFallbackSchema rand now domain).sampleData.length = 3 ∧
    (∀ j, j < 3 → ∃ r, ((generateFallbackSchema rand now domain).sampleData)[j]? = some r ∧
      ∀ k ty, (k, ty) ∈ (generateFallbackSchema rand now domain).schema →
        ((ty = some ("string") →
          jsLookup r k = some (Value.str (("Sample ") ++ k ++ (" ") ++ toString (j + 1)))) ∧
         (ty = some ("number") →
          ∃ v : Int, jsLookup r k = some (Value.num v) ∧ 0 ≤ v ∧ v < 1000) ∧
         (ty = some ("date") → jsLookup r k = some (Value.str (isoOfTimestamp now))))) := by
  refine ⟨sampleRowsAux_length rand now _ 3 0 0, ?_⟩
  intro j hj
  obtain ⟨c', hc⟩ := sampleRowsAux_get rand now (fallbackSchemaFor domain) 3 0 0 j hj
  rw [Nat.zero_add] at hc
  refine ⟨_, hc, ?_⟩
  intro k ty hmem
  obtain ⟨c'', hl⟩ := sampleFields_lookup_mem rand now j (fallbackSchemaFor domain) [] c' k ty
    (fallbackSchemaFor_nodup domain) hmem
  refine ⟨?_, ?_, ?_⟩
  · rintro rfl
    rw [hl]
    simp [sampleValue]
  · rintro rfl
    rw [hl]
    refine ⟨⌊rand c'' * 1000⌋, by simp [sampleValue], ?_, ?_⟩
    · rw [Int.le_floor]
      push_cast
      exact mul_nonneg (hr c'').1 (by norm_num)
    · rw [Int.floor_lt]
      push_cast
      nlinarith [(hr c'').1, (hr c'').2]
  · rintro rfl
    rw [hl]
    simp [sampleValue]

theorem claim_C10_witness :
    UnitRand (fun _ => 0) ∧
    ((generateFallbackSchema (fun _ => 0) 0 ("retail")).sampleData.length = 3 ∧
     (∀ j, j < 3 →
      ∃ r, ((generateFallbackSchema (fun _ => 0) 0 ("retail")).sampleData)[j]? = some r ∧
        ∀ k ty, (k, ty) ∈ (generateFallbackSchema (fun _ => 0) 0 ("retail")).schema →
          ((ty = some ("string") →
            jsLookup r k = some (Value.str (("Sample ") ++ k ++ (" ") ++ toString (j + 1)))) ∧
           (ty = some ("number") →
            ∃ v : Int, jsLookup r k = some (Value.num v) ∧ 0 ≤ v ∧ v < 1000) ∧
           (ty = some ("date") → jsLookup r k = some (Value.str (isoOfTimestamp 0)))))) :=
  ⟨fun _ => ⟨le_refl 0, by norm_num⟩,
    claim_C10 (fun _ => 0) 0 ("retail") (fun _ => ⟨le_refl 0, by norm_num⟩)⟩

theorem splitCh_ne_nil (c : Char) : ∀ l : List Char, splitCh c l ≠ []
  | [] => by simp [splitCh]
  | a :: rest => by
    by_cases h : a = c
    · simp [splitCh, h]
    · simp [splitCh, h]

theorem headD_mem_splitCh (c : Char) (l : List Char) :
    (splitCh c l).headD [] ∈ splitCh c l := by
  cases hsp : splitCh c l with
  | nil => exact absurd hsp (splitCh_ne_nil c l)
  | cons x xs => simp

theorem mem_splitCh_sublist (c : Char) :
    ∀ (l seg : List Char), seg ∈ splitCh c l → seg.Sublist l
  | [], seg, h => by
    simp [splitCh] at h
    simp [h]
  | a :: rest, seg, h => by
    by_cases hac : a = c
    · simp only [splitCh, if_pos hac] at h
      rcases List.mem_cons.mp h with rfl | h'
      · exact List.nil_sublist _
      · exact (mem_splitCh_sublist c rest seg h').cons a
    · simp only [splitCh, if_neg hac] at h
      rcases List.mem_cons.mp h with rfl | h'
      · exact List.Sublist.cons₂ a
          (mem_splitCh_sublist c rest _ (headD_mem_splitCh c rest))
      · exact (mem_splitCh_sublist c rest seg ((List.tail_sublist _).subset h')).cons a

theorem sep_not_mem_splitCh (c : Char) :
    ∀ (l seg : List Char), seg ∈ splitCh c l → c ∉ seg
  | [], seg, h => by
    simp [splitCh] at h
    simp [h]
  | a :: rest, seg, h => by
    by_cases hac : a = c
    · simp only [splitCh, if_pos hac] at h
      rcases List.mem_cons.mp h with rfl | h'
      · simp
      · exact sep_not_mem_splitCh c rest seg h'
    · simp only [splitCh, if_neg hac] at h
      rcases List.mem_cons.mp h with rfl | h'
      · intro hmem
        rcases List.mem_cons.mp hmem with heq | hmem'
        · exact hac heq.symm
        · exact sep_not_mem_splitCh c rest _ (headD_mem_splitCh c rest) hmem'
      · exact sep_not_mem_splitCh c rest seg ((List.tail_sublist _).subset h')

theorem splitCh_of_not_mem (c : Char) : ∀ l : List Char, c ∉ l → splitCh c l = [l]
  | [], _ => rfl
  | a :: rest, h => by
    have hac : ¬a = c := fun hc => h (by simp [hc])
    have hrest : c ∉ rest := fun hc => h (List.mem_cons_of_mem a hc)
    simp only [splitCh, if_neg hac, splitCh_of_not_mem c rest hrest]
    rfl

theorem splitCh_append_sep (c : Char) :
    ∀ (s u : List Char), c ∉ s → splitCh c (s ++ c :: u) = s :: splitCh c u
  | [], u, _ => by simp [splitCh]
  | a :: s', u, h => by
    have hac : ¬a = c := fun hc => h (by simp [hc])
    have hs' : c ∉ s' := fun hc => h (List.mem_cons_of_mem a hc)
    rw [List.cons_append]
    simp only [splitCh, if_neg hac]
    rw [splitCh_append_sep c s' u hs']
    rfl

theorem splitCh_joinCh (c : Char) :
    ∀ segs : List (List Char), segs ≠ [] → (∀ seg ∈ segs, c ∉ seg) →
      splitCh c (joinCh c segs) = segs
  | [], h, _ => absurd rfl h
  | [s], _, hfree => by
    simp only [joinCh]
    exact splitCh_of_not_mem c s (hfree s (by simp))
  | s :: t :: rest, _, hfree => by
    simp only [joinCh]
    rw [splitCh_append_sep c s _ (hfree s (by simp))]
    rw [splitCh_joinCh c (t :: rest) (by simp) (fun seg hs => hfree seg (by simp [hs]))]

theorem not_mem_joinCh (c c' : Char) (hne : c' ≠ c) :
    ∀ segs : List (List Char), (∀ seg ∈ segs, c' ∉ seg) → c' ∉ joinCh c segs
  | [], _ => by simp [joinCh]
  | [s], hfree => by
    simp only [joinCh]
    exact hfree s (by simp)
  | s :: t :: rest, hfree => by
    simp only [joinCh]
    intro hmem
    rcases List.mem_append.mp hmem with h1 | h2
    · exact hfree s (by simp) h1
    · rcases List.mem_cons.mp h2 with heq | h3
      · exact hne heq
      · exact not_mem_joinCh c c' hne (t :: rest)
          (fun seg hs => hfree seg (by simp [hs])) h3

theorem dropTrailingSp_cons (a : Char) (l : List Char) :
    dropTrailingSp (a :: l) =
      if dropTrailingSp l = [] && isSp a then [] else a :: dropTrailingSp l := rfl

theorem dropTrailingSp_sublist : ∀ l : List Char, (dropTrailingSp l).Sublist l
  | [] => List.Sublist.refl []
  | a :: rest => by
    simp only [dropTrailingSp]
    split
    · exact List.nil_sublist _
    · exact List.Sublist.cons₂ a (dropTrailingSp_sublist rest)

theorem trimCh_sublist (l : List Char) : (trimCh l).Sublist l :=
  (dropTrailingSp_sublist _).trans (List.dropWhile_sublist _)

theorem not_mem_trimCh (c : Char) (l : List Char) (h : c ∉ l) : c ∉ trimCh l :=
  fun hc => h ((trimCh_sublist l).subset hc)

theorem dropTrailingSp_idem : ∀ l : List Char, dropTrailingSp (dropTrailingSp l) = dropTrailingSp l
  | [] => rfl
  | a :: rest => by
    simp only [dropTrailingSp]
    split
    · rfl
    · rename_i h
      simp only [dropTrailingSp, dropTrailingSp_idem rest]
      rw [if_neg h]

theorem dropWhile_head_not :
    ∀ (l : List Char) (a : Char) (t : List Char), l.dropWhile isSp = a :: t → isSp a = false
  | [], a, t, h => by simp at h
  | b :: rest, a, t, h => by
    rw [List.dropWhile_cons] at h
    by_cases hb : isSp b = true
    · rw [if_pos (by simp [hb])] at h
      exact dropWhile_head_not rest a t h
    · rw [if_neg (by simp at hb ⊢; simp [hb])] at h
      injection h with h1 _
      rw [← h1]
      simpa using hb

theorem trimCh_idem (l : List Char) : trimCh (trimCh l) = trimCh l := by
  unfold trimCh
  cases hm : l.dropWhile isSp with
  | nil => simp [dropTrailingSp]
  | cons a t =>
    have ha : isSp a = false := dropWhile_head_not l a t hm
    have hcond : (decide (dropTrailingSp t = []) && isSp a) = false := by
      rw [ha, Bool.and_false]
    simp only [dropTrailingSp]
    rw [if_neg (by simp [hcond, ha])]
    rw [List.dropWhile_cons, if_neg (by simp [ha])]
    simp only [dropTrailingSp, dropTrailingSp_idem t]
    rw [if_neg (by simp [hcond, ha])]

theorem dropTrailingSp_eq_self :
    ∀ (l : List Char) (a : Char), l.getLast? = some a → isSp a = false → dropTrailingSp l = l
  | [], a, h, _ => by simp at h
  | [b], a, h, hsp => by
    have hb : b = a := by simpa using h
    subst hb
    simp [dropTrailingSp, hsp]
  | b :: bb :: rest, a, h, hsp => by
    have h' : (bb :: rest).getLast? = some a := by
      rw [List.getLast?_cons_cons] at h
      exact h
    have ih := dropTrailingSp_eq_self (bb :: rest) a h' hsp
    rw [dropTrailingSp_cons, ih]
    simp

theorem trimCh_eq_self (l : List Char) (a b : Char) (h1 : l.head? = some a)
    (h2 : isSp a = false) (h3 : l.getLast? = some b) (h4 : isSp b = false) : trimCh l = l := by
  cases l with
  | nil => simp at h1
  | cons x xs =>
    have hx : x = a := by simpa using h1
    subst hx
    unfold trimCh
    rw [List.dropWhile_cons, if_neg (by simp [h2])]
    exact dropTrailingSp_eq_self (x :: xs) b h3 h4

theorem jsLookup_some_mem (r : Row) (k : String) (v : Value) (h : jsLookup r k = some v) :
    ∃ p, p ∈ r ∧ p.2 = v := by
  unfold jsLookup at h
  cases hf : r.find? (fun p => p.1 = k) with
  | none =>
    rw [hf] at h
    simp at h
  | some p =>
    rw [hf] at h
    have hv : p.2 = v := by
      simpa using h
    exact ⟨p, List.mem_of_find?_eq_some hf, hv⟩

theorem lookup_isSome_of_mem_keys (r : Row) (k : String) (h : k ∈ keysOf r) :
    ∃ v, jsLookup r k = some v := by
  unfold jsLookup
  cases hf : r.find? (fun p => p.1 = k) with
  | some p => exact ⟨p.2, rfl⟩
  | none =>
    exfalso
    have hall := List.find?_eq_none.mp hf
    rcases List.mem_map.mp h with ⟨p, hp, he⟩
    have hne := hall p hp
    simp at hne
    exact hne he

theorem keysOf_buildCsvRowAux_indep (vs vs' : List String) :
    ∀ (headers : List String) (idx idx' : Nat) (acc acc' : Row),
      keysOf acc = keysOf acc' →
      keysOf (buildCsvRowAux vs headers idx acc) =
        keysOf (buildCsvRowAux vs' headers idx' acc')
  | [], _, _, _, _, h => h
  | h0 :: rest, idx, idx', acc, acc', h => by
    simp only [buildCsvRowAux]
    apply keysOf_buildCsvRowAux_indep vs vs' rest _ _ _ _
    rw [keysOf_objInsert, keysOf_objInsert, h]

theorem mem_keys_buildCsvRowAux (vs : List String) :
    ∀ (headers : List String) (idx : Nat) (acc : Row) (a : String),
      a ∈ keysOf (buildCsvRowAux vs headers idx acc) ↔ a ∈ keysOf acc ∨ a ∈ headers
  | [], _, _, a => by simp [buildCsvRowAux]
  | h0 :: rest, idx, acc, a => by
    simp only [buildCsvRowAux]
    rw [mem_keys_buildCsvRowAux vs rest _ _ a, mem_keys_objInsert]
    simp only [List.mem_cons]
    tauto

theorem nodup_keys_buildCsvRowAux (vs : List String) :
    ∀ (headers : List String) (idx : Nat) (acc : Row),
      (keysOf acc).Nodup → (keysOf (buildCsvRowAux vs headers idx acc)).Nodup
  | [], _, _, h => h
  | h0 :: rest, _, acc, h =>
    nodup_keys_buildCsvRowAux vs rest _ _ (nodup_keys_objInsert acc h0 _ h)

theorem keysOf_buildCsvRowAux_nodup (vs : List String) :
    ∀ (headers : List String) (idx : Nat) (acc : Row), headers.Nodup →
      (∀ h ∈ headers, h ∉ keysOf acc) →
      keysOf (buildCsvRowAux vs headers idx acc) = keysOf acc ++ headers
  | [], _, acc, _, _ => by simp [buildCsvRowAux]
  | h0 :: rest, idx, acc, hnd, hfresh => by
    have hfresh' : ∀ h ∈ rest, h ∉ keysOf (objInsert acc h0 (Value.str (vs.getD idx ("")))) := by
      intro h hmem hc
      rcases (mem_keys_objInsert acc h0 h _).mp hc with heq | hacc
      · exact (List.nodup_cons.mp hnd).1 (heq ▸ hmem)
      · exact hfresh h (by simp [hmem]) hacc
    simp only [buildCsvRowAux]
    rw [keysOf_buildCsvRowAux_nodup vs rest _ _ (List.nodup_cons.mp hnd).2 hfresh']
    rw [keysOf_objInsert, if_neg (hfresh h0 (by simp))]
    simp

theorem buildCsvRowAux_lookup_not_mem (vs : List String) :
    ∀ (headers : List String) (idx : Nat) (acc : Row) (k : String), k ∉ headers →
      jsLookup (buildCsvRowAux vs headers idx acc) k = jsLookup acc k
  | [], _, _, _, _ => rfl
  | h0 :: rest, idx, acc, k, h => by
    have hk0 : h0 ≠ k := fun hc => h (by simp [hc])
    simp only [buildCsvRowAux]
    rw [buildCsvRowAux_lookup_not_mem vs rest _ _ k (fun hc => h (by simp [hc]))]
    exact jsLookup_objInsert_ne acc k h0 _ hk0

theorem buildCsvRowAux_lookup (vs : List String) :
    ∀ (headers : List String) (idx : Nat) (acc : Row) (j : Nat) (k : String),
      headers.Nodup → headers[j]? = some k →
      jsLookup (buildCsvRowAux vs headers idx acc) k =
        some (Value.str (vs.getD (idx + j) ("")))
  | [], _, _, j, k, _, hj => by simp at hj
  | h0 :: rest, idx, acc, 0, k, hnd, hj => by
    have hk : h0 = k := by simpa using hj
    subst hk
    have hnotin : h0 ∉ rest := (List.nodup_cons.mp hnd).1
    simp only [buildCsvRowAux]
    rw [buildCsvRowAux_lookup_not_mem vs rest _ _ h0 hnotin, jsLookup_objInsert_self,
      Nat.add_zero]
  | h0 :: rest, idx, acc, Nat.succ j, k, hnd, hj => by
    have hj' : rest[j]? = some k := by simpa using hj
    simp only [buildCsvRowAux]
    rw [buildCsvRowAux_lookup vs rest (idx + 1) _ j k (List.nodup_cons.mp hnd).2 hj']
    rw [show idx + 1 + j = idx + (j + 1) from by omega]

theorem mem_buildCsvRowAux (vs : List String) :
    ∀ (headers : List String) (idx : Nat) (acc : Row) (p : String × Value),
      p ∈ buildCsvRowAux vs headers idx acc →
      p ∈ acc ∨ ∃ j, p.2 = Value.str (vs.getD j (""))
  | [], _, _, p, h => Or.inl h
  | h0 :: rest, idx, acc, p, h => by
    rcases mem_buildCsvRowAux vs rest _ _ p h with hacc | hex
    · unfold objInsert at hacc
      by_cases hany : (acc.any (fun q => q.1 = h0)) = true
      · rw [if_pos hany] at hacc
        rcases List.mem_map.mp hacc with ⟨q, hq, hqe⟩
        by_cases hq0 : q.1 = h0
        · rw [if_pos hq0] at hqe
          refine Or.inr ⟨idx, ?_⟩
          rw [← hqe]
        · rw [if_neg hq0] at hqe
          exact Or.inl (hqe ▸ hq)
      · rw [if_neg hany] at hacc
        rcases List.mem_append.mp hacc with h1 | h2
        · exact Or.inl h1
        · refine Or.inr ⟨idx, ?_⟩
          have : p = (h0, Value.str (vs.getD idx (""))) := by simpa using h2
          rw [this]
    · exact Or.inr hex

theorem jsSplit_jsJoinCh (c : Char) (xs : List String) (hne : xs ≠ [])
    (hfree : ∀ x ∈ xs, c ∉ x.data) : jsSplit c (jsJoinCh c xs) = xs := by
  unfold jsSplit jsJoinCh
  rw [show (String.mk (joinCh c (xs.map String.data))).data = joinCh c (xs.map String.data)
    from rfl]
  rw [splitCh_joinCh c (xs.map String.data) (by simpa using hne)]
  · rw [List.map_map]
    have : (String.mk ∘ String.data) = id := by
      funext s
      rfl
    rw [this, List.map_id]
  · intro seg hseg
    rcases List.mem_map.mp hseg with ⟨x, hx, rfl⟩
    exact hfree x hx

theorem not_mem_data_jsJoinCh (c c' : Char) (hne : c' ≠ c) (xs : List String)
    (hfree : ∀ x ∈ xs, c' ∉ x.data) : c' ∉ (jsJoinCh c xs).data := by
  unfold jsJoinCh
  rw [show (String.mk (joinCh c (xs.map String.data))).data = joinCh c (xs.map String.data)
    from rfl]
  apply not_mem_joinCh c c' hne
  intro seg hseg
  rcases List.mem_map.mp hseg with ⟨x, hx, rfl⟩
  exact hfree x hx

theorem jsTrim_eq_self (s : String) (h : trimCh s.data = s.data) : jsTrim s = s := by
  unfold jsTrim
  rw [h]

theorem keyOk_spec (k : String) (h : keyOk k = true) :
    ',' ∉ k.data ∧ '\n' ∉ k.data ∧ jsTrim k = k := by
  unfold keyOk chFree trimStable at h
  simp only [Bool.and_eq_true, decide_eq_true_eq] at h
  exact ⟨h.1.1, h.1.2, jsTrim_eq_self k h.2⟩

theorem cellOk_spec (v : Value) (h : cellOk v = true) :
    (renderCell (some v)).data ≠ [] ∧ ',' ∉ (renderCell (some v)).data ∧
      '\n' ∉ (renderCell (some v)).data ∧ jsTrim (renderCell (some v)) = renderCell (some v) := by
  unfold cellOk chFree trimStable at h
  simp only [Bool.and_eq_true, decide_eq_true_eq] at h
  exact ⟨h.1.1.1, h.1.1.2, h.1.2, jsTrim_eq_self _ h.2⟩

theorem lookup_cellOk (r : Row) (k : String) (hvals : ∀ p ∈ r, cellOk p.2 = true)
    (hmem : k ∈ keysOf r) : ∃ v, jsLookup r k = some v ∧ cellOk v = true := by
  obtain ⟨v, hv⟩ := lookup_isSome_of_mem_keys r k hmem
  obtain ⟨p, hp, hpv⟩ := jsLookup_some_mem r k v hv
  exact ⟨v, hv, hpv ▸ hvals p hp⟩

theorem buildCsvRow_keys (K vs : List String) (hnd : K.Nodup) :
    keysOf (buildCsvRow K vs) = K := by
  unfold buildCsvRow
  rw [keysOf_buildCsvRowAux_nodup vs K 0 [] hnd (by intro h _ hc; simp [keysOf] at hc)]
  rfl

theorem any_ne_of_lookup (r : Row) (k : String) (v : Value) (h : jsLookup r k = some v)
    (hne : v ≠ Value.str ("")) :
    (r.any (fun p => decide (p.2 ≠ Value.str ("")))) = true := by
  obtain ⟨p, hp, hpv⟩ := jsLookup_some_mem r k v h
  rw [List.any_eq_true]
  exact ⟨p, hp, by simp [hpv, hne]⟩

theorem csv_roundtrip (d : List Row) (K : List String) (hK : K ≠ []) (hnd : K.Nodup)
    (hkeys : ∀ k ∈ K, keyOk k = true)
    (huni : ∀ r ∈ d, keysOf r = K)
    (hvals : ∀ r ∈ d, ∀ p ∈ r, cellOk p.2 = true) :
    (parseCsvRows (exportData d ("csv"))).length = d.length ∧
    ∀ r' ∈ parseCsvRows (exportData d ("csv")), keysOf r' = K := by
  cases d with
  | nil =>
    constructor
    · rfl
    · intro r' h'
      have hempty : parseCsvRows (exportData ([] : List Row) ("csv")) = ([] : List Row) := rfl
      rw [hempty] at h'
      exact absurd h' (List.not_mem_nil r')
  | cons r0 rest =>
    have hK0 : keysOf r0 = K := huni r0 (by simp)
    have hexp : exportData (r0 :: rest) ("csv") =
        jsJoinCh '\n' (jsJoinCh ',' K ::
          (r0 :: rest).map
            (fun r => jsJoinCh ',' (K.map (fun k => renderCell (jsLookup r k))))) := by
      rw [← hK0]
      rfl
    have hkeyfacts : ∀ k ∈ K, ',' ∉ k.data ∧ '\n' ∉ k.data ∧ jsTrim k = k :=
      fun k hk => keyOk_spec k (hkeys k hk)
    have hcellfacts : ∀ r ∈ r0 :: rest, ∀ k ∈ K,
        (renderCell (jsLookup r k)).data ≠ [] ∧ ',' ∉ (renderCell (jsLookup r k)).data ∧
        '\n' ∉ (renderCell (jsLookup r k)).data ∧
        jsTrim (renderCell (jsLookup r k)) = renderCell (jsLookup r k) := by
      intro r hr k hk
      obtain ⟨v, hv, hok⟩ := lookup_cellOk r k (hvals r hr) (by rw [huni r hr]; exact hk)
      rw [hv]
      exact cellOk_spec v hok
    have hsplit : jsSplit '\n' (exportData (r0 :: rest) ("csv")) =
        jsJoinCh ',' K ::
          (r0 :: rest).map
            (fun r => jsJoinCh ',' (K.map (fun k => renderCell (jsLookup r k)))) := by
      rw [hexp]
      apply jsSplit_jsJoinCh '\n' _ (by simp)
      intro x hx
      rcases List.mem_cons.mp hx with rfl | hx'
      · exact not_mem_data_jsJoinCh ',' '\n' (by decide) K (fun k hk => (hkeyfacts k hk).2.1)
      · rcases List.mem_map.mp hx' with ⟨r, hr, rfl⟩
        apply not_mem_data_jsJoinCh ',' '\n' (by decide)
        intro x hx
        rcases List.mem_map.mp hx with ⟨k, hk, rfl⟩
        exact (hcellfacts r hr k hk).2.2.1
    have hheaders : ((jsSplit ',' (jsJoinCh ',' K)).map jsTrim) = K := by
      rw [jsSplit_jsJoinCh ',' K hK (fun k hk => (hkeyfacts k hk).1)]
      calc K.map jsTrim = K.map id := List.map_congr_left (fun k hk => (hkeyfacts k hk).2.2)
        _ = K := List.map_id K
    have hcells : ∀ r ∈ r0 :: rest,
        (jsSplit ',' (jsJoinCh ','
            (K.map (fun k => renderCell (jsLookup r k))))).map jsTrim =
          K.map (fun k => renderCell (jsLookup r k)) := by
      intro r hr
      rw [jsSplit_jsJoinCh ',' _ (by simpa using hK) ?free]
      · calc (K.map (fun k => renderCell (jsLookup r k))).map jsTrim
            = (K.map (fun k => renderCell (jsLookup r k))).map id := by
              apply List.map_congr_left
              intro x hx
              rcases List.mem_map.mp hx with ⟨k, hk, rfl⟩
              exact (hcellfacts r hr k hk).2.2.2
          _ = K.map (fun k => renderCell (jsLookup r k)) := List.map_id _
      case free =>
        intro x hx
        rcases List.mem_map.mp hx with ⟨k, hk, rfl⟩
        exact (hcellfacts r hr k hk).2.1
    unfold parseCsvRows
    rw [hsplit]
    rw [show ((jsJoinCh ',' K :: (r0 :: rest).map
        (fun r => jsJoinCh ',' (K.map (fun k => renderCell (jsLookup r k))))).headD ("")) =
      jsJoinCh ',' K from rfl]
    rw [hheaders]
    rw [show ((jsJoinCh ',' K :: (r0 :: rest).map
        (fun r => jsJoinCh ',' (K.map (fun k => renderCell (jsLookup r k))))).drop 1) =
      (r0 :: rest).map
        (fun r => jsJoinCh ',' (K.map (fun k => renderCell (jsLookup r k)))) from rfl]
    rw [List.map_map]
    rw [List.map_congr_left (g := fun r =>
        buildCsvRow K (K.map (fun k => renderCell (jsLookup r k))))
      (fun r hr => by
        show buildCsvRow K ((jsSplit ','
            (jsJoinCh ',' (K.map (fun k => renderCell (jsLookup r k))))).map jsTrim) = _
        rw [hcells r hr])]
    have hall : ∀ b ∈ (r0 :: rest).map
        (fun r => buildCsvRow K (K.map (fun k => renderCell (jsLookup r k)))),
        (b.any (fun p => decide (p.2 ≠ Value.str ("")))) = true := by
      intro b hb
      rcases List.mem_map.mp hb with ⟨r, hr, rfl⟩
      obtain ⟨k0, K', hKc⟩ := List.exists_cons_of_ne_nil hK
      have hj : K[0]? = some k0 := by
        rw [hKc]
        simp
      have hlook := buildCsvRowAux_lookup (K.map (fun k => renderCell (jsLookup r k)))
        K 0 [] 0 k0 hnd hj
      have hv0 : (K.map (fun k => renderCell (jsLookup r k))).getD (0 + 0) ("") =
          renderCell (jsLookup r k0) := by
        rw [hKc]
        simp
      rw [hv0] at hlook
      apply any_ne_of_lookup _ k0 _ hlook
      intro hc
      injection hc with hc'
      exact (hcellfacts r hr k0 (by rw [hKc]; simp)).1 (by rw [hc'])
    rw [List.filter_eq_self.mpr hall]
    constructor
    · rw [List.length_map]
    · intro r' h'
      rcases List.mem_map.mp h' with ⟨r, hr, rfl⟩
      exact buildCsvRow_keys K _ hnd

theorem jsSplit_ne_nil (c : Char) (s : String) : jsSplit c s ≠ [] := by
  unfold jsSplit
  intro h
  rw [List.map_eq_nil_iff] at h
  exact splitCh_ne_nil c s.data h

theorem mem_jsSplit (c : Char) (s x : String) (h : x ∈ jsSplit c s) :
    c ∉ x.data ∧ x.data.Sublist s.data := by
  unfold jsSplit at h
  rcases List.mem_map.mp h with ⟨seg, hseg, rfl⟩
  exact ⟨sep_not_mem_splitCh c s.data seg hseg, mem_splitCh_sublist c s.data seg hseg⟩

theorem headD_mem_jsSplit (c : Char) (s : String) :
    (jsSplit c s).headD ("") ∈ jsSplit c s := by
  cases h : jsSplit c s with
  | nil => exact absurd h (jsSplit_ne_nil c s)
  | cons x xs => simp

theorem cellOk_of_safe_str (s : String) (h1 : ',' ∉ s.data) (h2 : '\n' ∉ s.data) :
    cellOk (Value.str s) = true := by
  have hdata : (renderCell (some (Value.str s))).data = ('\x22' :: s.data) ++ ['\x22'] := by
    show (("\x22") ++ s ++ ("\x22")).data = ('\x22' :: s.data) ++ ['\x22']
    simp
  unfold cellOk chFree trimStable
  simp only [Bool.and_eq_true, decide_eq_true_eq, hdata]
  refine ⟨⟨⟨by simp, ?_⟩, ?_⟩, ?_⟩
  · simp only [List.cons_append, List.mem_cons, List.mem_append, List.mem_singleton]
    rintro (hc | hc | hc)
    · exact absurd hc (by decide)
    · exact h1 hc
    · exact absurd hc (by decide)
  · simp only [List.cons_append, List.mem_cons, List.mem_append, List.mem_singleton]
    rintro (hc | hc | hc)
    · exact absurd hc (by decide)
    · exact h2 hc
    · exact absurd hc (by decide)
  · apply trimCh_eq_self _ '\x22' '\x22'
    · simp
    · decide
    · rw [List.getLast?_concat]
    · decide

theorem keyOk_of_segment (seg : String) (h1 : ',' ∉ seg.data) (h2 : '\n' ∉ seg.data) :
    keyOk (jsTrim seg) = true := by
  unfold keyOk chFree trimStable jsTrim
  simp only [Bool.and_eq_true, decide_eq_true_eq]
  exact ⟨⟨not_mem_trimCh _ _ h1, not_mem_trimCh _ _ h2⟩, trimCh_idem seg.data⟩

theorem parseCsvRows_mem_shape (text : String) (r : Row) (hr : r ∈ parseCsvRows text) :
    ∃ line, line ∈ jsSplit '\n' text ∧
      r = buildCsvRow ((jsSplit ',' ((jsSplit '\n' text).headD (""))).map jsTrim)
        ((jsSplit ',' line).map jsTrim) := by
  unfold parseCsvRows at hr
  have hr' := List.mem_of_mem_filter hr
  rcases List.mem_map.mp hr' with ⟨line, hline, rfl⟩
  exact ⟨line, (List.drop_sublist 1 _).subset hline, rfl⟩

theorem getD_cases (vs : List String) (j : Nat) :
    vs.getD j ("") = ("") ∨ vs.getD j ("") ∈ vs := by
  by_cases hj : j < vs.length
  · right
    rw [List.getD_eq_getElem vs ("") hj]
    exact List.getElem_mem hj
  · left
    rw [List.getD_eq_default vs ("") (by omega)]

theorem parseCsvRows_wf (text : String) (r0 : Row) (rest : List Row)
    (hd : parseCsvRows text = r0 :: rest) :
    keysOf r0 ≠ [] ∧ (keysOf r0).Nodup ∧
    (∀ k ∈ keysOf r0, keyOk k = true) ∧
    (∀ r ∈ parseCsvRows text, keysOf r = keysOf r0) ∧
    (∀ r ∈ parseCsvRows text, ∀ p ∈ r, cellOk p.2 = true) := by
  have hline0 := headD_mem_jsSplit '\n' text
  have hline0free : '\n' ∉ ((jsSplit '\n' text).headD ("")).data :=
    (mem_jsSplit '\n' text _ hline0).1
  have hHok : ∀ k ∈ (jsSplit ',' ((jsSplit '\n' text).headD (""))).map jsTrim,
      keyOk k = true := by
    intro k hk
    rcases List.mem_map.mp hk with ⟨seg, hseg, rfl⟩
    have hsegfacts := mem_jsSplit ',' _ seg hseg
    exact keyOk_of_segment seg hsegfacts.1
      (fun hc => hline0free (hsegfacts.2.subset hc))
  have hr0 : r0 ∈ parseCsvRows text := by
    rw [hd]
    simp
  obtain ⟨line0, _, hshape0⟩ := parseCsvRows_mem_shape text r0 hr0
  have hHne : (jsSplit ',' ((jsSplit '\n' text).headD (""))).map jsTrim ≠ [] := by
    intro hc
    rw [List.map_eq_nil_iff] at hc
    exact jsSplit_ne_nil ',' _ hc
  refine ⟨?_, ?_, ?_, ?_, ?_⟩
  · obtain ⟨h0, hh0⟩ := List.exists_mem_of_ne_nil _ hHne
    have : h0 ∈ keysOf r0 := by
      rw [hshape0]
      exact (mem_keys_buildCsvRowAux _ _ _ _ h0).mpr (Or.inr hh0)
    exact List.ne_nil_of_mem this
  · rw [hshape0]
    exact nodup_keys_buildCsvRowAux _ _ _ _ List.nodup_nil
  · intro k hk
    rw [hshape0] at hk
    rcases (mem_keys_buildCsvRowAux _ _ _ _ k).mp hk with hacc | hH
    · simp [keysOf] at hacc
    · exact hHok k hH
  · intro r hr
    obtain ⟨line, _, hshape⟩ := parseCsvRows_mem_shape text r hr
    rw [hshape, hshape0]
    exact keysOf_buildCsvRowAux_indep _ _ _ _ _ _ _ rfl
  · intro r hr p hp
    obtain ⟨line, hlinemem, hshape⟩ := parseCsvRows_mem_shape text r hr
    rw [hshape] at hp
    rcases mem_buildCsvRowAux _ _ _ _ p hp with hacc | ⟨j, hj⟩
    · exact absurd hacc (List.not_mem_nil p)
    · rw [hj]
      rcases getD_cases ((jsSplit ',' line).map jsTrim) j with he | hmem
      · rw [he]
        exact cellOk_of_safe_str ("") (by simp) (by simp)
      · rcases List.mem_map.mp hmem with ⟨seg, hseg, hsegeq⟩
        have hlinefree : '\n' ∉ line.data := (mem_jsSplit '\n' text line hlinemem).1
        have hsegfacts := mem_jsSplit ',' line seg hseg
        rw [← hsegeq]
        apply cellOk_of_safe_str
        · show ',' ∉ (jsTrim seg).data
          exact not_mem_trimCh _ _ hsegfacts.1
        · show '\n' ∉ (jsTrim seg).data
          exact not_mem_trimCh _ _ (fun hc => hlinefree (hsegfacts.2.subset hc))

/-- Claim C9 is refuted at this input: the dataset `[{}, {}]` — two rows
with an empty field set, obtainable from an uploaded JSON file whose text
is `[{},{}]` — has 2 rows, but after exporting it to CSV and re-reading
that CSV through the Schema Inferencer's CSV reader, every line parses to
an all-empty row and is dropped by the parser's filter: the row count
becomes 0, so the JSON→CSV→JSON round trip does not preserve the row
count. -/
theorem claim_C9_counterexample :
    (jsonParseOfStringify [([] : Row), ([] : Row)]).length = 2 ∧
    (parseCsvRows (exportData (jsonParseOfStringify [([] : Row), ([] : Row)])
      ("csv"))).length = 0 := by
  constructor
  · rfl
  · rfl

/-- Claim C9, amended: the CSV→JSON→CSV round trip (CSV reader, then
JSON stringify/parse — the identity on datasets — then CSV export, then
CSV reader) always preserves the row count and the per-row key list; the
JSON→CSV→JSON round trip preserves them provided every row has the same
nonempty, duplicate-free key list and keys and values survive CSV
transport (no separator characters and stable under trimming — the
claim's own "string quoting/escaping limitations aside" made precise),
which rules out rows with an empty field set. -/
theorem claim_C9 :
    (∀ text : String,
      (parseCsvRows (exportData (jsonParseOfStringify (parseCsvRows text))
          ("csv"))).length = (parseCsvRows text).length ∧
      ∀ r' ∈ parseCsvRows (exportData (jsonParseOfStringify (parseCsvRows text)) ("csv")),
        ∀ r ∈ parseCsvRows text, keysOf r' = keysOf r) ∧
    (∀ (d : List Row) (K : List String), K ≠ [] → K.Nodup →
      (∀ k ∈ K, keyOk k = true) → (∀ r ∈ d, keysOf r = K) →
      (∀ r ∈ d, ∀ p ∈ r, cellOk p.2 = true) →
      (jsonParseOfStringify (parseCsvRows (exportData d ("csv")))).length = d.length ∧
      ∀ r' ∈ jsonParseOfStringify (parseCsvRows (exportData d ("csv"))),
        keysOf r' = K) := by
  constructor
  · intro text
    cases hd : parseCsvRows text with
    | nil =>
      constructor
      · rfl
      · intro r' _ r hmem
        exact absurd hmem (List.not_mem_nil r)
    | cons r0 rest =>
      obtain ⟨hne, hnd, hkeys, huni, hvals⟩ := parseCsvRows_wf text r0 rest hd
      have hrt := csv_roundtrip (r0 :: rest) (keysOf r0) hne hnd hkeys
        (fun r hr => huni r (by rw [hd]; exact hr))
        (fun r hr => hvals r (by rw [hd]; exact hr))
      constructor
      · exact hrt.1
      · intro r' hr' r hmem
        have h1 : keysOf r' = keysOf r0 := hrt.2 r' hr'
        have h2 : keysOf r = keysOf r0 := huni r (by rw [hd]; exact hmem)
        rw [h1, h2]
  · intro d K hK hnd hkeys huni hvals
    exact csv_roundtrip d K hK hnd hkeys huni hvals

theorem claim_C9_witness :
    keyOk ("a") = true ∧
    ((jsonParseOfStringify (parseCsvRows
        (exportData [[(("a"), Value.str ("x"))]] ("csv")))).length = 1 ∧
      ∀ r' ∈ jsonParseOfStringify (parseCsvRows
        (exportData [[(("a"), Value.str ("x"))]] ("csv"))), keysOf r' = [("a")]) :=
  ⟨by decide,
    claim_C9.2 [[(("a"), Value.str ("x"))]] [("a")] (by decide) (by decide) (by decide)
      (by decide) (by decide)⟩

end DataGen
